import Mathlib

/-!
Verification of the Scannerv2 repository (src/Main.py) against its
natural-language specification.

The Python program is embedded shallowly:

* printed output and the contents of the `scans` directory form an explicit
  state (`PyState`), threaded through a small state-plus-exception monad
  `PyM`;
* Python exceptions become the `PyError` inductive, raised through the
  monad exactly where the source raises;
* `datetime.now()` values, `random.randint(1, 5)` draws and the fate of the
  file write inside `save_scan` are external inputs of a run and are passed
  as explicit parameters;
* `json.dump`/`json.load` communicate JSON documents; a successfully written
  file stores the dumped `Json` value, an interrupted write leaves a raw
  text fragment (`FileContent.fragment`).

Every definition is translated from src/Main.py; comments cite the source
lines they embed.
-/

/-! ### Decimal digits and zero-padded fields

`strftime` fields such as `%m` are zero-padded decimal numbers.  `datetime`
guarantees 1 ≤ month ≤ 12, 1 ≤ day ≤ 31, hour ≤ 23, minute ≤ 59,
second ≤ 59, and `%Y` is four digits for the years 1000–9999 that
`datetime.now()` produces, so the two- and four-digit formatters below are
exact on every value the program can feed them (`DateTime.Valid`). -/

def digitChar : Nat → Char
  | 0 => '0' | 1 => '1' | 2 => '2' | 3 => '3' | 4 => '4'
  | 5 => '5' | 6 => '6' | 7 => '7' | 8 => '8' | _ => '9'

/-- Decimal value of a digit character. -/
def dval (c : Char) : Nat := c.toNat - 48

def isDig (c : Char) : Bool := decide (48 ≤ c.toNat) && decide (c.toNat ≤ 57)

/-- The digit sequence of a two-digit zero-padded field (`%m`, `%d`, `%H`,
`%M`, `%S`), for values below 100. -/
def digits2 (n : Nat) : List Nat := [n / 10, n % 10]

/-- The digit sequence of the four-digit `%Y` field, for values below
10000. -/
def digits4 (n : Nat) : List Nat := [n / 1000, n / 100 % 10, n / 10 % 10, n % 10]

def pad2 (n : Nat) : List Char := (digits2 n).map digitChar

def pad4 (n : Nat) : List Char := (digits4 n).map digitChar

/-! ### Wall-clock instants

One `datetime.now()` result, at second resolution (the finest resolution
any `strftime` format in the program uses). -/

structure DateTime where
  year : Nat
  month : Nat
  day : Nat
  hour : Nat
  minute : Nat
  second : Nat
deriving DecidableEq

/-- The field ranges `datetime` guarantees (plus `1000 ≤ year`, which holds
for every value `datetime.now()` returns and keeps `%Y` four digits). -/
def DateTime.Valid (t : DateTime) : Prop :=
  1000 ≤ t.year ∧ t.year ≤ 9999 ∧
  1 ≤ t.month ∧ t.month ≤ 12 ∧
  1 ≤ t.day ∧ t.day ≤ 31 ∧
  t.hour ≤ 23 ∧ t.minute ≤ 59 ∧ t.second ≤ 59

instance (t : DateTime) : Decidable t.Valid := by
  unfold DateTime.Valid; infer_instance

/-- The instant as the number YYYYMMDDhhmmss; chronological order of valid
instants is the order of their keys. -/
def DateTime.key (t : DateTime) : Nat :=
  ((((t.year * 100 + t.month) * 100 + t.day) * 100 + t.hour) * 100 + t.minute) * 100
    + t.second

/-- `strftime("%Y%m%d")` (Main.py line 118). -/
def DateTime.dateStr (t : DateTime) : List Char := pad4 t.year ++ pad2 t.month ++ pad2 t.day

/-- `strftime("%H%M%S")` (Main.py line 118). -/
def DateTime.timeStr (t : DateTime) : List Char := pad2 t.hour ++ pad2 t.minute ++ pad2 t.second

/-- `strftime("%Y-%m-%d %H:%M:%S")` (Main.py line 72). -/
def DateTime.display (t : DateTime) : String :=
  String.mk (pad4 t.year) ++ "-" ++ String.mk (pad2 t.month) ++ "-" ++ String.mk (pad2 t.day)
    ++ " " ++ String.mk (pad2 t.hour) ++ ":" ++ String.mk (pad2 t.minute) ++ ":"
    ++ String.mk (pad2 t.second)

/-! ### JSON documents

Only the shapes `json.dump` receives here: strings, arrays and objects
(insertion-ordered string-keyed dicts). -/

inductive Json where
  | str (s : String)
  | arr (elems : List Json)
  | obj (fields : List (String × Json))

/-- Python dict indexing `j[k]` on a JSON object, `None`-valued otherwise. -/
def Json.get? (j : Json) (k : String) : Option Json :=
  match j with
  | .obj fields => fields.lookup k
  | _ => none

/-! ### Scan records (Main.py lines 70–74 and 97–101) -/

/-- One entry of `findings["findings"]`.  The JSON key `"type"` is a Lean
keyword, so the Lean field is `ftype`. -/
structure Finding where
  ftype : String
  severity : String
  recommendation : String
deriving DecidableEq

/-- The `findings` dict built by `scan_website` (lines 70–74). -/
structure ScanData where
  url : String
  scan_time : String
  findings : List Finding
deriving DecidableEq

def Finding.toJson (f : Finding) : Json :=
  .obj [("type", .str f.ftype), ("severity", .str f.severity),
        ("recommendation", .str f.recommendation)]

def ScanData.toJson (d : ScanData) : Json :=
  .obj [("url", .str d.url), ("scan_time", .str d.scan_time),
        ("findings", .arr (d.findings.map Finding.toJson))]

def Finding.fromJson (j : Json) : Option Finding :=
  match j.get? "type", j.get? "severity", j.get? "recommendation" with
  | some (.str a), some (.str b), some (.str c) => some ⟨a, b, c⟩
  | _, _, _ => none

def findingsFromJson : List Json → Option (List Finding)
  | [] => some []
  | j :: rest =>
    match Finding.fromJson j, findingsFromJson rest with
    | some f, some fs => some (f :: fs)
    | _, _ => none

def ScanData.fromJson (j : Json) : Option ScanData :=
  match j.get? "url", j.get? "scan_time", j.get? "findings" with
  | some (.str u), some (.str t), some (.arr l) =>
    match findingsFromJson l with
    | some fs => some ⟨u, t, fs⟩
    | none => none
  | _, _, _ => none

/-! ### class ColorPrinter (Main.py lines 22–30)

Python resolves `ColorPrinter.NAME` dynamically; `attrs` is the class
dictionary and `getAttr` the lookup.  The class defines RESET, GREEN, RED
and YELLOW only. -/

namespace ColorPrinter

def RESET : String := "\x1b[0m"

def GREEN : String := "\x1b[92m"

def RED : String := "\x1b[91m"

def YELLOW : String := "\x1b[93m"

def attrs : List (String × String) :=
  [("RESET", RESET), ("GREEN", GREEN), ("RED", RED), ("YELLOW", YELLOW)]

def getAttr (name : String) : Option String := attrs.lookup name

/-- `colorize` (lines 28–30): `f"{color}{text}{ColorPrinter.RESET}"`. -/
def colorize (color text : String) : String := color ++ text ++ RESET

end ColorPrinter

/-! ### Python exceptions raised by the program -/

inductive PyError where
  /-- `AttributeError`: class `cls` has no attribute `attr`. -/
  | attributeError (cls attr : String)
  /-- `ValueError`, as raised by `datetime.strptime` on non-matching data. -/
  | valueError (msg : String)
  /-- `OSError`/`IOError` from `os.makedirs`, `open` or the write. -/
  | osError (msg : String)
  /-- `IndexError` from list indexing. -/
  | indexError
  /-- `InvalidTarget`, the validation failure the specification demands for
  malformed URLs (spec section 7).  Listed so theorems can state that the
  code never produces it; no code in src/Main.py raises or defines it. -/
  | invalidTarget
deriving DecidableEq

/-- The text interpolated for `{e}` in the `except` handlers. -/
def PyError.text : PyError → String
  | .attributeError cls attr =>
    "type object " ++ cls ++ " has no attribute " ++ attr
  | .valueError msg => msg
  | .osError msg => msg
  | .indexError => "list index out of range"
  | .invalidTarget => "invalid target"

/-! ### The `scans` directory and the run state -/

/-- Contents of one file in the `scans` directory: either a completely
written JSON document, or the raw text fragment left behind when an
exception interrupted `json.dump` after the file was created. -/
inductive FileContent where
  | complete (j : Json)
  | fragment (text : String)

/-- The `scans` directory: whether it exists, and its files keyed by file
name (the part `os.listdir` returns). -/
structure Store where
  dirExists : Bool
  files : List (String × FileContent)

/-- State a run threads: everything printed so far, and the store. -/
structure PyState where
  out : List String
  store : Store

/-- State-and-exception monad for the embedded program: a Python exception
propagates with the state it was raised in. -/
def PyM (α : Type) : Type := PyState → (PyError ⊕ α) × PyState

def PyM.pure {α : Type} (a : α) : PyM α := fun s => (Sum.inr a, s)

def PyM.bind {α β : Type} (m : PyM α) (f : α → PyM β) : PyM β := fun s =>
  match m s with
  | (Sum.inl e, s1) => (Sum.inl e, s1)
  | (Sum.inr a, s1) => f a s1

instance : Monad PyM where
  pure := PyM.pure
  bind := PyM.bind

/-- `print(msg)`. -/
def pyPrint (msg : String) : PyM Unit := fun s =>
  (Sum.inr (), { s with out := s.out ++ [msg] })

/-- `raise e`. -/
def pyRaise {α : Type} (e : PyError) : PyM α := fun s => (Sum.inl e, s)

/-- A `try`/`except Exception` block: state changes made before the raise
persist, and the handler runs on them. -/
def pyTry (body : PyM Unit) (handler : PyError → PyM Unit) : PyM Unit := fun s =>
  match body s with
  | (Sum.inl e, s1) => handler e s1
  | (Sum.inr _, s1) => (Sum.inr (), s1)

/-- Dynamic attribute access `ColorPrinter.name`: `AttributeError` when the
class dictionary has no such key. -/
def getColor (name : String) : PyM String := fun s =>
  match ColorPrinter.getAttr name with
  | some c => (Sum.inr c, s)
  | none => (Sum.inl (.attributeError "ColorPrinter" name), s)

/-! ### banner and play_sound (Main.py lines 32–51) -/

def bannerText : String := "\n╔═╗╦  ╔═╗╔═╗╔═╗╗ ╦╔═══╗╔═╗╔═╗\n║ ∈║╚═╗║╣ ║ ║║ ║╚═╗ ║╣ ╠═╝╚═╗\n╚══╩═╩╝╚═╝╚═╝╚═╝╩ ╩╚═══╝╚═╝╚══╝\n"

/-- `banner()` (lines 44–51). -/
def banner : PyM Unit := do
  let g ← getColor "GREEN"
  pyPrint (ColorPrinter.colorize g bannerText)

/-- `play_sound` (lines 32–42): sound playback touches nothing in the
modelled state, and the function swallows its own exceptions, so it is the
identity computation here. -/
def play_sound (_soundFile : String) : PyM Unit := PyM.pure ()

/-! ### save_scan (Main.py lines 116–132) -/

/-- The file name built on line 118 from the `datetime.now()` result `t`:
`scan_` + `strftime` of `%Y%m%d_%H%M%S` + `.json`. -/
def scanFilename (t : DateTime) : String :=
  "scan_" ++ String.mk t.dateStr ++ "_" ++ String.mk t.timeStr ++ ".json"

/-- `os.path.join("scans", filename)` (line 119). -/
def scanFilepath (t : DateTime) : String := "scans/" ++ scanFilename t

/-- Write or overwrite one file of the directory (what `open(path, "w")`
followed by a write does to an existing or fresh file). -/
def setFile : List (String × FileContent) → String → FileContent → List (String × FileContent)
  | [], name, c => [(name, c)]
  | (k, v) :: rest, name, c =>
    if k = name then (name, c) :: rest else (k, v) :: setFile rest name c

def ensureDir (s : PyState) : PyState :=
  { s with store := { s.store with dirExists := true } }

def putFile (s : PyState) (name : String) (c : FileContent) : PyState :=
  { s with store := { s.store with files := setFile s.store.files name c } }

/-- Fate of the single file write attempted by one `save_scan` call.  The
constructors name which of the three fallible operations of the `try` body
(lines 122–127) the environment makes fail; `ok` is the unexceptional run. -/
inductive WriteOutcome where
  /-- Everything succeeds. -/
  | ok
  /-- `os.makedirs("scans")` raises (only reachable when the directory is
  missing; when it exists the call is skipped and the write succeeds). -/
  | errMakedirs (msg : String)
  /-- `open(filepath, "w")` raises; no file is created. -/
  | errOpen (msg : String)
  /-- `json.dump` raises after `frag` was already written to the freshly
  created (or truncated) file. -/
  | errDump (msg frag : String)

/-- Body of the `try` in `save_scan` (lines 122–130): ensure the directory,
open and write the file, report success, play the sound. -/
def saveScanBody (d : ScanData) (t : DateTime) (w : WriteOutcome) : PyM Unit := fun s =>
  let name := scanFilename t
  let success : PyM Unit := do
    let g ← getColor "GREEN"
    pyPrint (ColorPrinter.colorize g ("[+] Scan saved to " ++ scanFilepath t))
    play_sound "scan_complete.wav"
  match w with
  | .ok => success (putFile (ensureDir s) name (.complete d.toJson))
  | .errMakedirs msg =>
    if s.store.dirExists then
      -- the guard on line 122 skips `os.makedirs`, so nothing fails
      success (putFile s name (.complete d.toJson))
    else (Sum.inl (.osError msg), s)
  | .errOpen msg => (Sum.inl (.osError msg), ensureDir s)
  | .errDump msg frag => (Sum.inl (.osError msg), putFile (ensureDir s) name (.fragment frag))

/-- `save_scan` (lines 116–132): the whole body runs under
`try ... except Exception as e`, whose handler prints the failure and
returns normally. -/
def save_scan (d : ScanData) (t : DateTime) (w : WriteOutcome) : PyM Unit :=
  pyTry (saveScanBody d t w) fun e => do
    let r ← getColor "RED"
    pyPrint (ColorPrinter.colorize r ("[!] Failed to save scan: " ++ e.text))

/-! ### scan_website (Main.py lines 65–114)

External inputs of one invocation: the first `datetime.now()` (line 72,
named `now`), the `random.randint(1, 5)` draw (line 88, named `r`), the
second `datetime.now()` inside `save_scan` (line 118, named `saveT`) and
the write fate `w`. -/

/-- The finding appended on each loop iteration (lines 93–101). -/
def findingEntry : Finding :=
  { ftype := "SQL Injection"
    severity := "High"
    recommendation := "Implement prepared statements to prevent SQL injection." }

/-- Body of `for i in range(num_findings)` (lines 92–106): append the
finding, print its four lines.  `red` is the `ColorPrinter.RED` value the
loop interpolates. -/
def findingLoop (red : String) : List Nat → ScanData → PyM ScanData
  | [], d => PyM.pure d
  | i :: rest, d => do
    let d1 : ScanData := { d with findings := d.findings ++ [findingEntry] }
    pyPrint (ColorPrinter.colorize red ("  [Finding " ++ toString (i + 1) ++ "]"))
    pyPrint (ColorPrinter.colorize red ("      Type: " ++ findingEntry.ftype))
    pyPrint (ColorPrinter.colorize red ("      Severity: " ++ findingEntry.severity))
    pyPrint (ColorPrinter.colorize red
      ("      Recommendation: " ++ findingEntry.recommendation ++ "\n"))
    findingLoop red rest d1

/-- Lines 88–108: `num_findings = random.randint(1, 5)` is the parameter
`r`; then either the vulnerability branch with its loop, or the
`No vulnerabilities detected` branch. -/
def generateFindings (d : ScanData) (r : Nat) : PyM ScanData := do
  if r > 0 then
    let red ← getColor "RED"
    pyPrint (ColorPrinter.colorize red "[!] Potential vulnerabilities found!")
    findingLoop red (List.range r) d
  else
    let g ← getColor "GREEN"
    pyPrint (ColorPrinter.colorize g "[+] No vulnerabilities detected.\n")
    PyM.pure d

/-- Lines 112–114, the tail of `scan_website` once the scan has completed:
`save_scan(findings)` followed by `return findings`. -/
def saveAndReturn (d : ScanData) (saveT : DateTime) (w : WriteOutcome) : PyM ScanData := do
  save_scan d saveT w
  PyM.pure d

/-- `scan_website(url)` (lines 65–114).  `time.sleep` calls do not touch the
modelled state and are noted in place. -/
def scan_website (url : String) (now : DateTime) (r : Nat) (saveT : DateTime)
    (w : WriteOutcome) : PyM ScanData := do
  banner
  let y1 ← getColor "YELLOW"
  pyPrint (ColorPrinter.colorize y1 ("\n[+] Starting scan for " ++ url ++ "..."))
  let d0 : ScanData := { url := url, scan_time := now.display, findings := [] }
  let b1 ← getColor "BLUE"
  pyPrint (ColorPrinter.colorize b1 "[*] Checking for open directories...")
  -- time.sleep(1)
  let b2 ← getColor "BLUE"
  pyPrint (ColorPrinter.colorize b2 "[*] Running vulnerability scans...")
  -- time.sleep(2)
  let y2 ← getColor "YELLOW"
  pyPrint (ColorPrinter.colorize y2 "[*] Analyzing SSL/TLS configuration...")
  -- time.sleep(1)
  let d1 ← generateFindings d0 r
  let g ← getColor "GREEN"
  pyPrint (ColorPrinter.colorize g "[+] Scan completed successfully!\n")
  saveAndReturn d1 saveT w

/-! ### view_history (Main.py lines 134–162)

Python compares strings by code points; `sorted(..., reverse=True)` is
modelled by an insertion sort descending under that order. -/

/-- Code-point lexicographic strict order on character lists, as Python
compares strings. -/
def listLtb : List Char → List Char → Bool
  | [], [] => false
  | [], _ :: _ => true
  | _ :: _, [] => false
  | a :: as, b :: bs =>
    if a.toNat < b.toNat then true
    else if b.toNat < a.toNat then false
    else listLtb as bs

def strLtb (a b : String) : Bool := listLtb a.data b.data

/-- Insert into a list sorted in descending order. -/
def insertDesc (a : String) : List String → List String
  | [] => [a]
  | b :: rest => if strLtb a b then b :: insertDesc a rest else a :: b :: rest

/-- `sorted(names, reverse=True)` (line 144). -/
def sortDesc : List String → List String
  | [] => []
  | a :: rest => insertDesc a (sortDesc rest)

/-- `name.replace(".json", "")` (line 147), specialised to its constant
pattern: every occurrence of `.json` is removed, other characters kept. -/
def stripDotJson : List Char → List Char
  | '.' :: 'j' :: 's' :: 'o' :: 'n' :: rest => stripDotJson rest
  | c :: rest => c :: stripDotJson rest
  | [] => []

/-- `base.split("_")` (line 147): split on every underscore, keeping empty
pieces, as Python `str.split` with an explicit separator does. -/
def splitUnd : List Char → List (List Char)
  | [] => [[]]
  | c :: rest =>
    if c = '_' then [] :: splitUnd rest
    else
      match splitUnd rest with
      | [] => [[c]]
      | g :: gs => (c :: g) :: gs

/-! `datetime.strptime(timestamp, "%Y%m%d%H%M%S")` (line 148).  CPython
compiles the format to a regular expression: `%Y` is exactly four digits
and each of `%m`, `%d`, `%H`, `%M`, `%S` is one or two digits within its
range (two-digit forms 01–12, 01–31, 00–23, 00–59, 00–61; one-digit forms
1–9, 1–9, 0–9, 0–9, 0–9), the whole string must be consumed, and
alternatives are tried with backtracking. -/

/-- Candidate parses of one `1-or-2 digit` field: value and remaining
input, two-digit alternative first, as in the generated regex. -/
def fieldCands (ok2 ok1 : Nat → Bool) : List Char → List (Nat × List Char)
  | a :: b :: rest =>
    (if isDig a && isDig b && ok2 (10 * dval a + dval b)
      then [(10 * dval a + dval b, rest)] else [])
      ++ (if isDig a && ok1 (dval a) then [(dval a, b :: rest)] else [])
  | [a] => if isDig a && ok1 (dval a) then [(dval a, [])] else []
  | [] => []

/-- First parse a continuation accepts: regex backtracking over the
candidate list. -/
def firstSome {α β : Type} : List α → (α → Option β) → Option β
  | [], _ => none
  | a :: rest, f =>
    match f a with
    | some b => some b
    | none => firstSome rest f

def monthOk2 (v : Nat) : Bool := decide (1 ≤ v) && decide (v ≤ 12)

def monthOk1 (v : Nat) : Bool := decide (1 ≤ v) && decide (v ≤ 9)

def dayOk2 (v : Nat) : Bool := decide (1 ≤ v) && decide (v ≤ 31)

def dayOk1 (v : Nat) : Bool := decide (1 ≤ v) && decide (v ≤ 9)

def hourOk2 (v : Nat) : Bool := decide (v ≤ 23)

def hourOk1 (v : Nat) : Bool := decide (v ≤ 9)

def minuteOk2 (v : Nat) : Bool := decide (v ≤ 59)

def minuteOk1 (v : Nat) : Bool := decide (v ≤ 9)

def secondOk2 (v : Nat) : Bool := decide (v ≤ 61)

def secondOk1 (v : Nat) : Bool := decide (v ≤ 9)

/-- `datetime.strptime(s, "%Y%m%d%H%M%S")`, `none` on `ValueError`. -/
def strptimeYmdHMS (s : List Char) : Option DateTime :=
  match s with
  | a :: b :: c :: d :: rest =>
    if isDig a && isDig b && isDig c && isDig d then
      let y := ((dval a * 10 + dval b) * 10 + dval c) * 10 + dval d
      firstSome (fieldCands monthOk2 monthOk1 rest) fun p1 =>
        firstSome (fieldCands dayOk2 dayOk1 p1.2) fun p2 =>
          firstSome (fieldCands hourOk2 hourOk1 p2.2) fun p3 =>
            firstSome (fieldCands minuteOk2 minuteOk1 p3.2) fun p4 =>
              firstSome (fieldCands secondOk2 secondOk1 p4.2) fun p5 =>
                if p5.2 = [] then
                  some ⟨y, p1.1, p2.1, p3.1, p4.1, p5.1⟩
                else none
    else none
  | _ => none

/-- Lines 147–149 for one history entry: extract the timestamp from the
file name, parse it, print the summary line.  A missing split index raises
`IndexError`; a failed parse raises `ValueError` carrying the unmatched
data. -/
def historyLine (i : Nat) (name : String) : PyM Unit :=
  let base := stripDotJson name.data
  match (splitUnd base).get? 1 with
  | none => pyRaise .indexError
  | some ts =>
    match strptimeYmdHMS ts with
    | none =>
      pyRaise (.valueError ("time data " ++ String.mk ts
        ++ " does not match format %Y%m%d%H%M%S"))
    | some dt =>
      pyPrint (toString (i + 1) ++ ") Scan ID: " ++ name ++ ", Date: " ++ dt.display)

/-- The `for i, scan_file in enumerate(scans[:10])` loop (lines 146–149),
already truncated to the first ten entries by the caller. -/
def historyLoop : Nat → List String → PyM Unit
  | _, [] => PyM.pure ()
  | i, name :: rest => do
    historyLine i name
    historyLoop (i + 1) rest

/-- `view_history()` (lines 134–162) up to its `input()` prompt.  The
interactive selection that follows the prompt reads from stdin and is
beyond the modelled state; under the files `save_scan` writes the loop
always raises first, so no modelled behaviour depends on it. -/
def view_history : PyM Unit := do
  banner
  pyPrint "\n===== Scan History =====\n"
  let s ← fun s => (Sum.inr s, s)
  if s.store.dirExists = false ∨ s.store.files.isEmpty = true then
    let y ← getColor "YELLOW"
    pyPrint (ColorPrinter.colorize y "No previous scans found.")
  else
    let scans := sortDesc (s.store.files.map Prod.fst)
    historyLoop 0 (scans.take 10)
    pyPrint "\nEnter s<scan_num> to view a specific scan, or press Enter to go back."

/-- The read `display_scan_details` performs (lines 166–171):
`open(os.path.join("scans", filename))` then `json.load`.  A missing file
or an interrupted fragment gives no document. -/
def readScan (name : String) (st : Store) : Option Json :=
  match st.files.lookup name with
  | some (.complete j) => some j
  | _ => none

/-! ## Basic facts about the embedding -/

theorem strData_append (a b : String) : (a ++ b).data = a.data ++ b.data := by
  cases a; cases b; rfl

theorem getAttr_GREEN : ColorPrinter.getAttr "GREEN" = some ColorPrinter.GREEN := rfl

theorem getAttr_RED : ColorPrinter.getAttr "RED" = some ColorPrinter.RED := rfl

theorem getAttr_YELLOW : ColorPrinter.getAttr "YELLOW" = some ColorPrinter.YELLOW := rfl

/-- The class dictionary of `ColorPrinter` (lines 22–30) has no `BLUE`
entry. -/
theorem getAttr_BLUE : ColorPrinter.getAttr "BLUE" = none := rfl

/-- Every run of `scan_website` raises `AttributeError` at the first
progress message (line 77): only the banner and the start message are
printed, the store is untouched, nothing is returned. -/
theorem scan_website_run (url : String) (now : DateTime) (r : Nat) (saveT : DateTime)
    (w : WriteOutcome) (s : PyState) :
    scan_website url now r saveT w s =
      (Sum.inl (PyError.attributeError "ColorPrinter" "BLUE"),
       { out := s.out ++
           [ColorPrinter.colorize ColorPrinter.GREEN bannerText,
            ColorPrinter.colorize ColorPrinter.YELLOW
              ("\n[+] Starting scan for " ++ url ++ "...")],
         store := s.store }) := by
  have h : scan_website url now r saveT w s =
      (Sum.inl (PyError.attributeError "ColorPrinter" "BLUE"),
       { s with out := (s.out ++
           [ColorPrinter.colorize ColorPrinter.GREEN bannerText]) ++
           [ColorPrinter.colorize ColorPrinter.YELLOW
             ("\n[+] Starting scan for " ++ url ++ "...")] }) := rfl
  rw [h]
  simp

/-! ## Claims C1, C2, C5: every invocation of scan_website crashes -/

/-- Claim C2: for every url, `scan_website(url)` raises `AttributeError`
before any finding is generated or saved: it reads `ColorPrinter.BLUE` at
the first progress message, but the class defines only RESET, GREEN, RED
and YELLOW, so no scan invocation runs to completion — the run yields the
error, the store is unchanged, and only the banner and the start message
were printed. -/
theorem claim_C2 (url : String) (now : DateTime) (r : Nat) (saveT : DateTime)
    (w : WriteOutcome) (s : PyState) :
    ColorPrinter.getAttr "BLUE" = none ∧
    scan_website url now r saveT w s =
      (Sum.inl (PyError.attributeError "ColorPrinter" "BLUE"),
       { out := s.out ++
           [ColorPrinter.colorize ColorPrinter.GREEN bannerText,
            ColorPrinter.colorize ColorPrinter.YELLOW
              ("\n[+] Starting scan for " ++ url ++ "...")],
         store := s.store }) :=
  ⟨rfl, scan_website_run url now r saveT w s⟩

/-- Claim C1 (code bug): the claim describes the intended behaviour — print
the banner, simulate the scan, generate findings and save them — but the
code evaluated at any url stops with `AttributeError` on
`ColorPrinter.BLUE` (line 77) before any finding or save: here the run at
the failing input `"http://example.com"` returns the error, writes no
file, and prints only two lines. -/
theorem claim_C1_failing_eval :
    (scan_website "http://example.com" ⟨2024, 1, 15, 12, 0, 0⟩ 3
        ⟨2024, 1, 15, 12, 0, 1⟩ WriteOutcome.ok ⟨[], ⟨false, []⟩⟩).1 =
      Sum.inl (PyError.attributeError "ColorPrinter" "BLUE") ∧
    (scan_website "http://example.com" ⟨2024, 1, 15, 12, 0, 0⟩ 3
        ⟨2024, 1, 15, 12, 0, 1⟩ WriteOutcome.ok ⟨[], ⟨false, []⟩⟩).2.store.files = [] ∧
    (scan_website "http://example.com" ⟨2024, 1, 15, 12, 0, 0⟩ 3
        ⟨2024, 1, 15, 12, 0, 1⟩ WriteOutcome.ok ⟨[], ⟨false, []⟩⟩).2.out.length = 2 :=
  ⟨rfl, rfl, rfl⟩

/-- Claim C5 counterexample: on the malformed target `"not a url"` the scan
does not fail fast with `InvalidTarget` and does run scanning steps: the
banner and the start message are printed (two output lines), and the
failure that does occur is the `AttributeError` on `ColorPrinter.BLUE`,
not `InvalidTarget`. -/
theorem claim_C5_counterexample :
    (scan_website "not a url" ⟨2024, 1, 15, 12, 0, 0⟩ 1
        ⟨2024, 1, 15, 12, 0, 0⟩ WriteOutcome.ok ⟨[], ⟨false, []⟩⟩).1 ≠
      Sum.inl PyError.invalidTarget ∧
    (scan_website "not a url" ⟨2024, 1, 15, 12, 0, 0⟩ 1
        ⟨2024, 1, 15, 12, 0, 0⟩ WriteOutcome.ok ⟨[], ⟨false, []⟩⟩).1 =
      Sum.inl (PyError.attributeError "ColorPrinter" "BLUE") ∧
    (scan_website "not a url" ⟨2024, 1, 15, 12, 0, 0⟩ 1
        ⟨2024, 1, 15, 12, 0, 0⟩ WriteOutcome.ok ⟨[], ⟨false, []⟩⟩).2.out.length = 2 := by
  refine ⟨?_, rfl, rfl⟩
  intro h
  simp only [show (scan_website "not a url" ⟨2024, 1, 15, 12, 0, 0⟩ 1
      ⟨2024, 1, 15, 12, 0, 0⟩ WriteOutcome.ok ⟨[], ⟨false, []⟩⟩).1 =
      Sum.inl (PyError.attributeError "ColorPrinter" "BLUE") from rfl] at h
  exact absurd (Sum.inl.inj h) (by decide)

/-- Claim C5 amended: `scan_website` performs no target validation at all —
a malformed target is accepted exactly like any other string, the scan
begins (banner and start message), and the invocation then fails with
`AttributeError` on `ColorPrinter.BLUE`, never with `InvalidTarget`, no
finding generated and nothing saved. -/
theorem claim_C5_amended (url : String) (now : DateTime) (r : Nat) (saveT : DateTime)
    (w : WriteOutcome) (s : PyState) :
    (scan_website url now r saveT w s).1 ≠ Sum.inl PyError.invalidTarget ∧
    (scan_website url now r saveT w s).1 =
      Sum.inl (PyError.attributeError "ColorPrinter" "BLUE") ∧
    (scan_website url now r saveT w s).2.store = s.store ∧
    (scan_website url now r saveT w s).2.out =
      s.out ++ [ColorPrinter.colorize ColorPrinter.GREEN bannerText,
        ColorPrinter.colorize ColorPrinter.YELLOW
          ("\n[+] Starting scan for " ++ url ++ "...")] := by
  have h := scan_website_run url now r saveT w s
  rw [h]
  refine ⟨?_, rfl, rfl, rfl⟩
  intro hbad
  exact absurd (Sum.inl.inj hbad) (by decide)

/-! ## Claim C10: finding generation -/

/-- The four lines the finding loop prints for index `i`. -/
def findingMsgs (red : String) (i : Nat) : List String :=
  [ColorPrinter.colorize red ("  [Finding " ++ toString (i + 1) ++ "]"),
   ColorPrinter.colorize red ("      Type: " ++ findingEntry.ftype),
   ColorPrinter.colorize red ("      Severity: " ++ findingEntry.severity),
   ColorPrinter.colorize red
     ("      Recommendation: " ++ findingEntry.recommendation ++ "\n")]

def loopMsgs (red : String) (l : List Nat) : List String := l.flatMap (findingMsgs red)

theorem findingLoop_run (red : String) (l : List Nat) (d : ScanData) (s : PyState) :
    findingLoop red l d s =
      (Sum.inr { d with findings := d.findings ++ List.replicate l.length findingEntry },
       { s with out := s.out ++ loopMsgs red l }) := by
  induction l generalizing d s with
  | nil => simp [findingLoop, loopMsgs, PyM.pure]
  | cons i rest ih =>
    have h : findingLoop red (i :: rest) d s =
        findingLoop red rest { d with findings := d.findings ++ [findingEntry] }
          { s with out := (((s.out
            ++ [ColorPrinter.colorize red ("  [Finding " ++ toString (i + 1) ++ "]")])
            ++ [ColorPrinter.colorize red ("      Type: " ++ findingEntry.ftype)])
            ++ [ColorPrinter.colorize red ("      Severity: " ++ findingEntry.severity)])
            ++ [ColorPrinter.colorize red
              ("      Recommendation: " ++ findingEntry.recommendation ++ "\n")] } := rfl
    rw [h, ih]
    simp [loopMsgs, findingMsgs, List.replicate_succ, List.flatMap_cons]

/-- Two strings colorized with RED and GREEN respectively are never equal:
their escape prefixes differ at the fourth character. -/
theorem red_ne_green (a b : String) :
    ColorPrinter.colorize ColorPrinter.RED a ≠ ColorPrinter.colorize ColorPrinter.GREEN b := by
  intro h
  have h2 := congrArg String.data h
  simp only [ColorPrinter.colorize, strData_append] at h2
  have hr : (ColorPrinter.RED).data = ['\x1b', '[', '9', '1', 'm'] := rfl
  have hg : (ColorPrinter.GREEN).data = ['\x1b', '[', '9', '2', 'm'] := rfl
  rw [hr, hg] at h2
  simp only [List.cons_append, List.cons.injEq] at h2
  exact absurd h2.2.2.2.1 (by decide)

/-- The message of the unreached `else` branch (line 108). -/
def noVulnMsg : String :=
  ColorPrinter.colorize ColorPrinter.GREEN "[+] No vulnerabilities detected.\n"

/-- The output of the vulnerability branch (lines 90–106) for draw `r`. -/
def vulnMsgs (r : Nat) : List String :=
  ColorPrinter.colorize ColorPrinter.RED "[!] Potential vulnerabilities found!"
    :: loopMsgs ColorPrinter.RED (List.range r)

theorem noVulnMsg_not_mem_vulnMsgs (r : Nat) : noVulnMsg ∉ vulnMsgs r := by
  intro h
  rcases List.mem_cons.mp h with h1 | h1
  · exact red_ne_green _ _ h1.symm
  · rcases List.mem_flatMap.mp h1 with ⟨i, _, hm⟩
    simp only [findingMsgs, List.mem_cons, List.not_mem_nil, or_false] at hm
    rcases hm with h2 | h2 | h2 | h2 <;> exact red_ne_green _ _ h2.symm

theorem generateFindings_run (d : ScanData) (r : Nat) (s : PyState) (h : 0 < r) :
    generateFindings d r s =
      (Sum.inr { d with findings := d.findings ++ List.replicate r findingEntry },
       { s with out := s.out ++ vulnMsgs r }) := by
  have h1 : generateFindings d r s =
      findingLoop ColorPrinter.RED (List.range r) d
        { s with out := s.out ++
            [ColorPrinter.colorize ColorPrinter.RED "[!] Potential vulnerabilities found!"] } := by
    show (if r > 0 then _ else _ : PyM ScanData) s = _
    rw [if_pos h]
    rfl
  rw [h1, findingLoop_run]
  simp [vulnMsgs, List.length_range]

/-- Claim C10: whenever `scan_website` reaches finding generation with the
draw `r` of `random.randint(1, 5)`, it produces exactly `r` findings with
`1 ≤ r ≤ 5`, each of type `SQL Injection` and severity `High`, and the
`No vulnerabilities detected` branch guarded by `num_findings > 0` is not
taken: its message is not among the printed lines. -/
theorem claim_C10 (d : ScanData) (r : Nat) (s : PyState)
    (h1 : 1 ≤ r) (h2 : r ≤ 5) :
    generateFindings d r s =
      (Sum.inr { d with findings := d.findings ++ List.replicate r findingEntry },
       { s with out := s.out ++ vulnMsgs r }) ∧
    1 ≤ (List.replicate r findingEntry).length ∧
    (List.replicate r findingEntry).length ≤ 5 ∧
    (∀ f ∈ List.replicate r findingEntry,
      f.ftype = "SQL Injection" ∧ f.severity = "High") ∧
    noVulnMsg ∉ vulnMsgs r := by
  refine ⟨generateFindings_run d r s h1, ?_, ?_, ?_, noVulnMsg_not_mem_vulnMsgs r⟩
  · simpa using h1
  · simpa using h2
  · intro f hf
    have := List.eq_of_mem_replicate hf
    subst this
    exact ⟨rfl, rfl⟩

/-- Witness for claim C10 at the concrete draw `r = 3`. -/
theorem claim_C10_witness :
    generateFindings ⟨"http://example.com", "2024-01-15 12:00:00", []⟩ 3 ⟨[], ⟨false, []⟩⟩ =
      (Sum.inr ⟨"http://example.com", "2024-01-15 12:00:00", List.replicate 3 findingEntry⟩,
       ⟨vulnMsgs 3, ⟨false, []⟩⟩) ∧
    noVulnMsg ∉ vulnMsgs 3 := by
  have h := claim_C10 ⟨"http://example.com", "2024-01-15 12:00:00", []⟩ 3 ⟨[], ⟨false, []⟩⟩
    (by decide) (by decide)
  refine ⟨?_, h.2.2.2.2⟩
  have h0 := h.1
  simpa using h0

/-! ## Runs of save_scan, by write fate -/

theorem PyM.bind_apply {α β : Type} (m : PyM α) (f : α → PyM β) (s : PyState) :
    (m >>= f) s =
      match m s with
      | (Sum.inl e, s1) => (Sum.inl e, s1)
      | (Sum.inr a, s1) => f a s1 := rfl

/-- The success line printed on line 129. -/
def savedMsg (t : DateTime) : String :=
  ColorPrinter.colorize ColorPrinter.GREEN ("[+] Scan saved to " ++ scanFilepath t)

/-- The line the `except` handler prints on line 132. -/
def failMsg (e : PyError) : String :=
  ColorPrinter.colorize ColorPrinter.RED ("[!] Failed to save scan: " ++ e.text)

theorem save_scan_ok (d : ScanData) (t : DateTime) (s : PyState) :
    save_scan d t WriteOutcome.ok s =
      (Sum.inr (), ⟨s.out ++ [savedMsg t],
        ⟨true, setFile s.store.files (scanFilename t) (.complete d.toJson)⟩⟩) := rfl

theorem save_scan_errOpen (d : ScanData) (t : DateTime) (m : String) (s : PyState) :
    save_scan d t (WriteOutcome.errOpen m) s =
      (Sum.inr (), ⟨s.out ++ [failMsg (.osError m)], ⟨true, s.store.files⟩⟩) := rfl

theorem save_scan_errDump (d : ScanData) (t : DateTime) (m frag : String) (s : PyState) :
    save_scan d t (WriteOutcome.errDump m frag) s =
      (Sum.inr (), ⟨s.out ++ [failMsg (.osError m)],
        ⟨true, setFile s.store.files (scanFilename t) (.fragment frag)⟩⟩) := rfl

theorem save_scan_errMakedirs_miss (d : ScanData) (t : DateTime) (m : String) (s : PyState)
    (h : s.store.dirExists = false) :
    save_scan d t (WriteOutcome.errMakedirs m) s =
      (Sum.inr (), ⟨s.out ++ [failMsg (.osError m)], s.store⟩) := by
  have hb : saveScanBody d t (.errMakedirs m) s = (Sum.inl (.osError m), s) := by
    simp only [saveScanBody, h]
    rfl
  show pyTry _ _ s = _
  rw [pyTry, hb]
  rfl

theorem lookup_setFile (l : List (String × FileContent)) (name : String) (c : FileContent) :
    (setFile l name c).lookup name = some c := by
  induction l with
  | nil => simp [setFile, List.lookup]
  | cons kv rest ih =>
    obtain ⟨k, v⟩ := kv
    by_cases hk : k = name
    · subst hk
      simp [setFile, List.lookup]
    · simp only [setFile, if_neg hk, List.lookup]
      have : (name == k) = false := by
        simp [beq_eq_false_iff_ne]
        exact fun hh => hk hh.symm
      rw [this]
      exact ih

/-! ## Claim C4: persistence failure never discards the completed record -/

/-- `w` makes the write attempted from state `s` actually fail: the
unexceptional fate is excluded, and a `makedirs` failure requires the
directory to be missing (otherwise the call is skipped). -/
def WriteFails : WriteOutcome → PyState → Prop
  | .ok, _ => False
  | .errMakedirs _, s => s.store.dirExists = false
  | .errOpen _, _ => True
  | .errDump _ _, _ => True

instance (w : WriteOutcome) (s : PyState) : Decidable (WriteFails w s) := by
  cases w <;> simp only [WriteFails] <;> infer_instance

/-- Claim C4: if persisting a completed record fails with any write error,
`save_scan` catches the exception and reports it, and the tail of
`scan_website` (lines 112–114) still returns the in-memory record
unchanged: the run ends in `Sum.inr d` and the failure line is in the
output. -/
theorem claim_C4 (d : ScanData) (saveT : DateTime) (w : WriteOutcome) (s : PyState)
    (h : WriteFails w s) :
    (saveAndReturn d saveT w s).1 = Sum.inr d ∧
    ∃ e : PyError, failMsg e ∈ (saveAndReturn d saveT w s).2.out := by
  cases w with
  | ok => exact absurd h (by simp [WriteFails])
  | errMakedirs m =>
    have hd : s.store.dirExists = false := h
    have hrun : saveAndReturn d saveT (.errMakedirs m) s =
        (Sum.inr d, ⟨s.out ++ [failMsg (.osError m)], s.store⟩) := by
      show (save_scan d saveT (.errMakedirs m) >>= fun _ => PyM.pure d) s = _
      rw [PyM.bind_apply, save_scan_errMakedirs_miss d saveT m s hd]
      rfl
    rw [hrun]
    exact ⟨rfl, ⟨.osError m, by simp⟩⟩
  | errOpen m =>
    have hrun : saveAndReturn d saveT (.errOpen m) s =
        (Sum.inr d, ⟨s.out ++ [failMsg (.osError m)], ⟨true, s.store.files⟩⟩) := by
      show (save_scan d saveT (.errOpen m) >>= fun _ => PyM.pure d) s = _
      rw [PyM.bind_apply, save_scan_errOpen]
      rfl
    rw [hrun]
    exact ⟨rfl, ⟨.osError m, by simp⟩⟩
  | errDump m frag =>
    have hrun : saveAndReturn d saveT (.errDump m frag) s =
        (Sum.inr d, ⟨s.out ++ [failMsg (.osError m)],
          ⟨true, setFile s.store.files (scanFilename saveT) (.fragment frag)⟩⟩) := by
      show (save_scan d saveT (.errDump m frag) >>= fun _ => PyM.pure d) s = _
      rw [PyM.bind_apply, save_scan_errDump]
      rfl
    rw [hrun]
    exact ⟨rfl, ⟨.osError m, by simp⟩⟩

/-- Witness for claim C4: a concrete failing `open` call. -/
theorem claim_C4_witness :
    WriteFails (WriteOutcome.errOpen "disk full") ⟨[], ⟨true, []⟩⟩ ∧
    (saveAndReturn ⟨"http://example.com", "2024-01-15 12:00:00", []⟩ ⟨2024, 1, 15, 12, 0, 0⟩
        (WriteOutcome.errOpen "disk full") ⟨[], ⟨true, []⟩⟩).1 =
      Sum.inr ⟨"http://example.com", "2024-01-15 12:00:00", []⟩ ∧
    (∃ e : PyError, failMsg e ∈
      (saveAndReturn ⟨"http://example.com", "2024-01-15 12:00:00", []⟩ ⟨2024, 1, 15, 12, 0, 0⟩
        (WriteOutcome.errOpen "disk full") ⟨[], ⟨true, []⟩⟩).2.out) := by
  have h := claim_C4 ⟨"http://example.com", "2024-01-15 12:00:00", []⟩ ⟨2024, 1, 15, 12, 0, 0⟩
    (WriteOutcome.errOpen "disk full") ⟨[], ⟨true, []⟩⟩ trivial
  exact ⟨trivial, h.1, h.2⟩

/-! ## Claim C6: save followed by read round-trips the record -/

theorem finding_fromJson_toJson (f : Finding) : Finding.fromJson f.toJson = some f := rfl

theorem findingsFromJson_map (l : List Finding) :
    findingsFromJson (l.map Finding.toJson) = some l := by
  induction l with
  | nil => rfl
  | cons f rest ih =>
    show findingsFromJson (Finding.toJson f :: rest.map Finding.toJson) = _
    rw [findingsFromJson, finding_fromJson_toJson, ih]

theorem scanData_fromJson_toJson (d : ScanData) : ScanData.fromJson d.toJson = some d := by
  have h := findingsFromJson_map d.findings
  show ScanData.fromJson (Json.obj
    [("url", .str d.url), ("scan_time", .str d.scan_time),
     ("findings", .arr (d.findings.map Finding.toJson))]) = some d
  rw [ScanData.fromJson]
  show (match findingsFromJson (d.findings.map Finding.toJson) with
    | some fs => some (⟨d.url, d.scan_time, fs⟩ : ScanData)
    | none => none) = some d
  rw [h]

/-- Claim C6: after `save_scan` writes a record, reading the same file back
the way `display_scan_details` does (`open` plus `json.load`, here
`readScan`) yields exactly the dumped document, and decoding that document
gives back a record equal to the one saved. -/
theorem claim_C6 (d : ScanData) (t : DateTime) (s : PyState) :
    readScan (scanFilename t) ((save_scan d t WriteOutcome.ok s).2).store = some d.toJson ∧
    ScanData.fromJson d.toJson = some d := by
  constructor
  · rw [save_scan_ok]
    show readScan (scanFilename t)
      ⟨true, setFile s.store.files (scanFilename t) (.complete d.toJson)⟩ = _
    rw [readScan, lookup_setFile]
  · exact scanData_fromJson_toJson d

/-! ## Claims C3 and C8: identifiers and write atomicity, concrete runs -/

/-- A fixed instant, used for two saves within the same clock second. -/
def tSame : DateTime := ⟨2024, 1, 15, 12, 0, 0⟩

def recA : ScanData := ⟨"http://a.example", "2024-01-15 12:00:00", []⟩

def recB : ScanData := ⟨"http://b.example", "2024-01-15 12:00:00", [findingEntry]⟩

/-- Claim C3 counterexample: two reports saved within the same second get
the same identifier, and the second save overwrites the first — after the
first save the directory holds the first record, after the second save it
holds only the second record under the same file name. -/
theorem claim_C3_counterexample :
    ((save_scan recA tSame WriteOutcome.ok ⟨[], ⟨false, []⟩⟩).2).store.files =
      [(scanFilename tSame, FileContent.complete recA.toJson)] ∧
    ((save_scan recB tSame WriteOutcome.ok
        ((save_scan recA tSame WriteOutcome.ok ⟨[], ⟨false, []⟩⟩).2)).2).store.files =
      [(scanFilename tSame, FileContent.complete recB.toJson)] :=
  ⟨rfl, rfl⟩

/-- Claim C8 counterexample: `save_scan` does not write to a temporary
location.  Starting from a store whose published path holds a complete
report, a write that fails during `json.dump` leaves a partial fragment at
the published path: the store changed, and a reader who saw the complete
document before sees none afterwards. -/
theorem claim_C8_counterexample :
    readScan (scanFilename tSame)
      (⟨true, [(scanFilename tSame, FileContent.complete recA.toJson)]⟩ : Store) =
      some recA.toJson ∧
    ((save_scan recB tSame (WriteOutcome.errDump "No space left on device" "\x7b")
        ⟨[], ⟨true, [(scanFilename tSame, FileContent.complete recA.toJson)]⟩⟩).2).store.files =
      [(scanFilename tSame, FileContent.fragment "\x7b")] ∧
    readScan (scanFilename tSame)
      ((save_scan recB tSame (WriteOutcome.errDump "No space left on device" "\x7b")
        ⟨[], ⟨true, [(scanFilename tSame, FileContent.complete recA.toJson)]⟩⟩).2).store =
      none ∧
    some recA.toJson ≠ (none : Option Json) := by
  refine ⟨rfl, rfl, rfl, ?_⟩
  simp

/-- Claim C8 amended: `save_scan` writes directly at the published path.
`open(filepath, "w")` creates or truncates the final file before
`json.dump` runs, so a failure during the dump leaves the fragment written
so far at the published path (replacing whatever was there); the exception
is caught, reported on the output, and not propagated. -/
theorem claim_C8_amended (d : ScanData) (t : DateTime) (m frag : String) (s : PyState) :
    save_scan d t (WriteOutcome.errDump m frag) s =
      (Sum.inr (), ⟨s.out ++ [failMsg (.osError m)],
        ⟨true, setFile s.store.files (scanFilename t) (.fragment frag)⟩⟩) ∧
    (setFile s.store.files (scanFilename t) (FileContent.fragment frag)).lookup
      (scanFilename t) = some (.fragment frag) :=
  ⟨save_scan_errDump d t m frag s, lookup_setFile _ _ _⟩

/-! ## Decimal digit strings and their order

File names embed zero-padded decimal fields; these lemmas relate the
code-point order `listLtb` on digit strings to the numeric values. -/

/-- Value of a most-significant-first digit sequence. -/
def valN : List Nat → Nat
  | [] => 0
  | x :: xs => x * 10 ^ xs.length + valN xs

theorem valN_lt (l : List Nat) (h : ∀ x ∈ l, x < 10) : valN l < 10 ^ l.length := by
  induction l with
  | nil => simp [valN]
  | cons x xs ih =>
    have hx : x < 10 := h x (List.mem_cons_self x xs)
    have hxs := ih fun y hy => h y (List.mem_cons_of_mem x hy)
    calc valN (x :: xs) = x * 10 ^ xs.length + valN xs := rfl
      _ < x * 10 ^ xs.length + 10 ^ xs.length := by omega
      _ = (x + 1) * 10 ^ xs.length := by ring
      _ ≤ 10 * 10 ^ xs.length := by
          have : x + 1 ≤ 10 := hx
          exact Nat.mul_le_mul_right _ this
      _ = 10 ^ (x :: xs).length := by
          simp [List.length_cons]
          ring

theorem valN_append (a b : List Nat) :
    valN (a ++ b) = valN a * 10 ^ b.length + valN b := by
  induction a with
  | nil => simp [valN]
  | cons x xs ih =>
    show valN (x :: (xs ++ b)) = _
    rw [valN, ih]
    simp [valN, List.length_append, pow_add]
    ring

theorem dcLt : ∀ a < 10, ∀ b < 10,
    ((digitChar a).toNat < (digitChar b).toNat ↔ a < b) := by decide

theorem dcEq : ∀ a < 10, ∀ b < 10, (digitChar a = digitChar b ↔ a = b) := by decide

theorem dcDigit : ∀ a < 10, isDig (digitChar a) = true := by decide

theorem dcNotUnd : ∀ a < 10, digitChar a ≠ '_' := by decide

theorem dcNotDot : ∀ a < 10, digitChar a ≠ '.' := by decide

theorem listLtb_prefix (p a b : List Char) :
    listLtb (p ++ a) (p ++ b) = listLtb a b := by
  induction p with
  | nil => rfl
  | cons c rest ih =>
    show listLtb (c :: (rest ++ a)) (c :: (rest ++ b)) = _
    rw [listLtb]
    simp [Nat.lt_irrefl, ih]

theorem listLtb_digits_append (ds : List Nat) :
    ∀ (es : List Nat) (r1 r2 : List Char), ds.length = es.length →
    (∀ x ∈ ds, x < 10) → (∀ x ∈ es, x < 10) → valN ds < valN es →
    listLtb (ds.map digitChar ++ r1) (es.map digitChar ++ r2) = true := by
  induction ds with
  | nil =>
    intro es r1 r2 hlen _ _ hv
    rw [List.length_nil] at hlen
    rw [List.eq_nil_of_length_eq_zero hlen.symm] at hv
    exact absurd hv (by simp [valN])
  | cons a as ih =>
    intro es r1 r2 hlen hd he hv
    cases es with
    | nil => exact absurd hlen (by simp)
    | cons b bs =>
      have hlen2 : as.length = bs.length := by
        simpa using hlen
      have ha : a < 10 := hd a (List.mem_cons_self a as)
      have hb : b < 10 := he b (List.mem_cons_self b bs)
      have has : ∀ x ∈ as, x < 10 := fun x hx => hd x (List.mem_cons_of_mem a hx)
      have hbs : ∀ x ∈ bs, x < 10 := fun x hx => he x (List.mem_cons_of_mem b hx)
      rcases Nat.lt_trichotomy a b with hab | hab | hab
      · show listLtb (digitChar a :: (as.map digitChar ++ r1))
          (digitChar b :: (bs.map digitChar ++ r2)) = true
        rw [listLtb]
        rw [if_pos ((dcLt a ha b hb).mpr hab)]
      · subst hab
        show listLtb (digitChar a :: (as.map digitChar ++ r1))
          (digitChar a :: (bs.map digitChar ++ r2)) = true
        rw [listLtb]
        rw [if_neg (Nat.lt_irrefl _), if_neg (Nat.lt_irrefl _)]
        have hvs : valN as < valN bs := by
          have h1 : valN (a :: as) = a * 10 ^ as.length + valN as := rfl
          have h2 : valN (a :: bs) = a * 10 ^ bs.length + valN bs := rfl
          rw [h1, h2, hlen2] at hv
          omega
        exact ih bs r1 r2 hlen2 has hbs hvs
      · exfalso
        have hboundbs : valN bs < 10 ^ bs.length := valN_lt bs hbs
        have hcalc : valN (b :: bs) < valN (a :: as) := by
          have h1 : valN (a :: as) = a * 10 ^ as.length + valN as := rfl
          have h2 : valN (b :: bs) = b * 10 ^ bs.length + valN bs := rfl
          rw [h1, h2, hlen2]
          have hstep : (b + 1) * 10 ^ bs.length ≤ a * 10 ^ bs.length :=
            Nat.mul_le_mul_right _ hab
          have : b * 10 ^ bs.length + valN bs < (b + 1) * 10 ^ bs.length := by
            have := hboundbs
            ring_nf
            omega
          omega
        omega

theorem valN_inj (ds : List Nat) :
    ∀ es : List Nat, ds.length = es.length →
    (∀ x ∈ ds, x < 10) → (∀ x ∈ es, x < 10) → valN ds = valN es → ds = es := by
  induction ds with
  | nil =>
    intro es hlen _ _ _
    exact (List.eq_nil_of_length_eq_zero (by simpa using hlen.symm)).symm
  | cons a as ih =>
    intro es hlen hd he hv
    cases es with
    | nil => exact absurd hlen (by simp)
    | cons b bs =>
      have hlen2 : as.length = bs.length := by simpa using hlen
      have ha : a < 10 := hd a (List.mem_cons_self a as)
      have hb : b < 10 := he b (List.mem_cons_self b bs)
      have has : ∀ x ∈ as, x < 10 := fun x hx => hd x (List.mem_cons_of_mem a hx)
      have hbs : ∀ x ∈ bs, x < 10 := fun x hx => he x (List.mem_cons_of_mem b hx)
      have hva : valN as < 10 ^ as.length := valN_lt as has
      have hvb : valN bs < 10 ^ bs.length := valN_lt bs hbs
      have h1 : valN (a :: as) = a * 10 ^ as.length + valN as := rfl
      have h2 : valN (b :: bs) = b * 10 ^ bs.length + valN bs := rfl
      rw [h1, h2, hlen2] at hv
      have hab : a = b := by
        rcases Nat.lt_trichotomy a b with hlt | heq | hlt
        · exfalso
          have : (a + 1) * 10 ^ bs.length ≤ b * 10 ^ bs.length :=
            Nat.mul_le_mul_right _ hlt
          have h3 : a * 10 ^ bs.length + valN as < (a + 1) * 10 ^ bs.length := by
            rw [hlen2] at hva
            ring_nf
            omega
          omega
        · exact heq
        · exfalso
          have : (b + 1) * 10 ^ bs.length ≤ a * 10 ^ bs.length :=
            Nat.mul_le_mul_right _ hlt
          have h3 : b * 10 ^ bs.length + valN bs < (b + 1) * 10 ^ bs.length := by
            ring_nf
            omega
          omega
      subst hab
      have hvs : valN as = valN bs := by omega
      rw [ih bs hlen2 has hbs hvs]

theorem digits2_bound (n : Nat) (h : n < 100) : ∀ x ∈ digits2 n, x < 10 := by
  intro x hx
  simp only [digits2, List.mem_cons, List.not_mem_nil, or_false] at hx
  rcases hx with h1 | h1 <;> omega

theorem digits4_bound (n : Nat) (h : n < 10000) : ∀ x ∈ digits4 n, x < 10 := by
  intro x hx
  simp only [digits4, List.mem_cons, List.not_mem_nil, or_false] at hx
  rcases hx with h1 | h1 | h1 | h1 <;> omega

theorem valN_digits2 (n : Nat) (_h : n < 100) : valN (digits2 n) = n := by
  simp [digits2, valN]
  omega

theorem valN_digits4 (n : Nat) (_h : n < 10000) : valN (digits4 n) = n := by
  simp [digits4, valN]
  omega

/-- The eight date digits of the file name. -/
def dateDigits (t : DateTime) : List Nat := digits4 t.year ++ digits2 t.month ++ digits2 t.day

/-- The six time digits of the file name. -/
def timeDigits (t : DateTime) : List Nat := digits2 t.hour ++ digits2 t.minute ++ digits2 t.second

theorem dateStr_eq_map (t : DateTime) : t.dateStr = (dateDigits t).map digitChar := by
  simp [DateTime.dateStr, dateDigits, pad4, pad2, List.map_append]

theorem timeStr_eq_map (t : DateTime) : t.timeStr = (timeDigits t).map digitChar := by
  simp [DateTime.timeStr, timeDigits, pad2, List.map_append]

/-- Numeric value of the date half, `YYYYMMDD`. -/
def dateVal (t : DateTime) : Nat := t.year * 10000 + t.month * 100 + t.day

/-- Numeric value of the time half, `hhmmss`. -/
def timeVal (t : DateTime) : Nat := t.hour * 10000 + t.minute * 100 + t.second

theorem valN_dateDigits (t : DateTime) (h : t.Valid) : valN (dateDigits t) = dateVal t := by
  obtain ⟨hy1, hy2, hm1, hm2, hd1, hd2, _, _, _⟩ := h
  rw [dateDigits, valN_append, valN_append]
  rw [valN_digits4 t.year (by omega), valN_digits2 t.month (by omega),
    valN_digits2 t.day (by omega)]
  simp [digits2, dateVal, List.length_append]
  ring

theorem valN_timeDigits (t : DateTime) (h : t.Valid) : valN (timeDigits t) = timeVal t := by
  obtain ⟨_, _, _, _, _, _, hh, hmi, hs⟩ := h
  rw [timeDigits, valN_append, valN_append]
  rw [valN_digits2 t.hour (by omega), valN_digits2 t.minute (by omega),
    valN_digits2 t.second (by omega)]
  simp [digits2, timeVal, List.length_append]
  ring

theorem dateDigits_bound (t : DateTime) (h : t.Valid) : ∀ x ∈ dateDigits t, x < 10 := by
  obtain ⟨hy1, hy2, hm1, hm2, hd1, hd2, _, _, _⟩ := h
  intro x hx
  rw [dateDigits] at hx
  rcases List.mem_append.mp hx with h1 | h1
  rcases List.mem_append.mp h1 with h2 | h2
  · exact digits4_bound t.year (by omega) x h2
  · exact digits2_bound t.month (by omega) x h2
  · exact digits2_bound t.day (by omega) x h1

theorem timeDigits_bound (t : DateTime) (h : t.Valid) : ∀ x ∈ timeDigits t, x < 10 := by
  obtain ⟨_, _, _, _, _, _, hh, hmi, hs⟩ := h
  intro x hx
  rw [timeDigits] at hx
  rcases List.mem_append.mp hx with h1 | h1
  rcases List.mem_append.mp h1 with h2 | h2
  · exact digits2_bound t.hour (by omega) x h2
  · exact digits2_bound t.minute (by omega) x h2
  · exact digits2_bound t.second (by omega) x h1

theorem dateDigits_length (t : DateTime) : (dateDigits t).length = 8 := rfl

theorem timeDigits_length (t : DateTime) : (timeDigits t).length = 6 := rfl

theorem key_decompose (t : DateTime) :
    t.key = dateVal t * 1000000 + timeVal t := by
  simp [DateTime.key, dateVal, timeVal]
  ring

/-- The character list of the file name, split at its literal pieces. -/
theorem scanFilename_data (t : DateTime) :
    (scanFilename t).data =
      ['s', 'c', 'a', 'n', '_'] ++
        (t.dateStr ++ '_' :: (t.timeStr ++ ['.', 'j', 's', 'o', 'n'])) := by
  show ("scan_" ++ String.mk t.dateStr ++ "_" ++ String.mk t.timeStr ++ ".json").data = _
  rw [strData_append, strData_append, strData_append, strData_append]
  show (['s', 'c', 'a', 'n', '_'] ++ t.dateStr ++ ['_'] ++ t.timeStr
    ++ ['.', 'j', 's', 'o', 'n'] : List Char) = _
  simp

theorem listLtb_irrefl (l : List Char) : listLtb l l = false := by
  induction l with
  | nil => rfl
  | cons c rest ih =>
    rw [listLtb]
    simp [Nat.lt_irrefl, ih]

theorem strLtb_true_ne (a b : String) (h : strLtb a b = true) : a ≠ b := by
  intro heq
  subst heq
  rw [strLtb, listLtb_irrefl] at h
  exact absurd h (by simp)

/-- Chronologically later valid instants give code-point-larger file names. -/
theorem scanFilename_mono (t1 t2 : DateTime) (h1 : t1.Valid) (h2 : t2.Valid)
    (hk : t1.key < t2.key) :
    strLtb (scanFilename t1) (scanFilename t2) = true := by
  rw [strLtb, scanFilename_data, scanFilename_data, listLtb_prefix]
  have hb1 := dateDigits_bound t1 h1
  have hb2 := dateDigits_bound t2 h2
  have htb1 := timeDigits_bound t1 h1
  have htb2 := timeDigits_bound t2 h2
  have htv1 : timeVal t1 < 1000000 := by
    obtain ⟨_, _, _, _, _, _, hh, hmi, hs⟩ := h1
    rw [timeVal]; omega
  have htv2 : timeVal t2 < 1000000 := by
    obtain ⟨_, _, _, _, _, _, hh, hmi, hs⟩ := h2
    rw [timeVal]; omega
  rw [key_decompose t1, key_decompose t2] at hk
  have hcase : dateVal t1 < dateVal t2 ∨
      (dateVal t1 = dateVal t2 ∧ timeVal t1 < timeVal t2) := by omega
  rcases hcase with hlt | ⟨heq, hlt⟩
  · rw [dateStr_eq_map, dateStr_eq_map]
    exact listLtb_digits_append (dateDigits t1) (dateDigits t2) _ _
      (by rw [dateDigits_length, dateDigits_length])
      hb1 hb2
      (by rw [valN_dateDigits t1 h1, valN_dateDigits t2 h2]; exact hlt)
  · have hdd : dateDigits t1 = dateDigits t2 :=
      valN_inj (dateDigits t1) (dateDigits t2)
        (by rw [dateDigits_length, dateDigits_length]) hb1 hb2
        (by rw [valN_dateDigits t1 h1, valN_dateDigits t2 h2]; exact heq)
    rw [dateStr_eq_map, dateStr_eq_map, hdd, listLtb_prefix]
    show listLtb ('_' :: (t1.timeStr ++ ['.', 'j', 's', 'o', 'n']))
      ('_' :: (t2.timeStr ++ ['.', 'j', 's', 'o', 'n'])) = true
    rw [listLtb]
    rw [if_neg (Nat.lt_irrefl _), if_neg (Nat.lt_irrefl _)]
    rw [timeStr_eq_map, timeStr_eq_map]
    exact listLtb_digits_append (timeDigits t1) (timeDigits t2) _ _
      (by rw [timeDigits_length, timeDigits_length])
      htb1 htb2
      (by rw [valN_timeDigits t1 h1, valN_timeDigits t2 h2]; exact hlt)

/-- Equal keys of valid instants mean equal instants. -/
theorem key_inj (t1 t2 : DateTime) (h1 : t1.Valid) (h2 : t2.Valid)
    (hk : t1.key = t2.key) : t1 = t2 := by
  obtain ⟨y1, mo1, d1, hh1, mi1, s1⟩ := t1
  obtain ⟨y2, mo2, d2, hh2, mi2, s2⟩ := t2
  simp only [DateTime.Valid] at h1 h2
  simp only [DateTime.key] at hk
  simp only [DateTime.mk.injEq]
  omega

/-- Claim C3 amended: `save_scan` derives the identifier solely from the
wall-clock second of the save.  Saves at the same second receive the same
identifier (so the later one overwrites the earlier, as the counterexample
shows); saves at distinct seconds receive distinct identifiers, ordered by
the code-point string order exactly as the instants are ordered in time. -/
theorem claim_C3_amended (t1 t2 : DateTime) (h1 : t1.Valid) (h2 : t2.Valid) :
    (t1.key = t2.key → scanFilename t1 = scanFilename t2) ∧
    (t1.key < t2.key → strLtb (scanFilename t1) (scanFilename t2) = true) ∧
    (t1.key ≠ t2.key → scanFilename t1 ≠ scanFilename t2) := by
  refine ⟨?_, scanFilename_mono t1 t2 h1 h2, ?_⟩
  · intro hk
    rw [key_inj t1 t2 h1 h2 hk]
  · intro hk
    rcases Nat.lt_or_ge t1.key t2.key with hlt | hge
    · exact strLtb_true_ne _ _ (scanFilename_mono t1 t2 h1 h2 hlt)
    · have hlt : t2.key < t1.key := by omega
      exact (strLtb_true_ne _ _ (scanFilename_mono t2 t1 h2 h1 hlt)).symm

/-- Witness for claim C3 amended: two concrete instants one second apart,
and the same-instant case. -/
theorem claim_C3_amended_witness :
    (⟨2024, 1, 15, 12, 0, 0⟩ : DateTime).Valid ∧
    (⟨2024, 1, 15, 12, 0, 1⟩ : DateTime).Valid ∧
    ((⟨2024, 1, 15, 12, 0, 0⟩ : DateTime).key = (⟨2024, 1, 15, 12, 0, 1⟩ : DateTime).key →
      scanFilename ⟨2024, 1, 15, 12, 0, 0⟩ = scanFilename ⟨2024, 1, 15, 12, 0, 1⟩) ∧
    ((⟨2024, 1, 15, 12, 0, 0⟩ : DateTime).key < (⟨2024, 1, 15, 12, 0, 1⟩ : DateTime).key →
      strLtb (scanFilename ⟨2024, 1, 15, 12, 0, 0⟩) (scanFilename ⟨2024, 1, 15, 12, 0, 1⟩) =
        true) ∧
    ((⟨2024, 1, 15, 12, 0, 0⟩ : DateTime).key ≠ (⟨2024, 1, 15, 12, 0, 1⟩ : DateTime).key →
      scanFilename ⟨2024, 1, 15, 12, 0, 0⟩ ≠ scanFilename ⟨2024, 1, 15, 12, 0, 1⟩) := by
  have h := claim_C3_amended ⟨2024, 1, 15, 12, 0, 0⟩ ⟨2024, 1, 15, 12, 0, 1⟩
    (by decide) (by decide)
  exact ⟨by decide, by decide, h.1, h.2.1, h.2.2⟩

/-! ## Claims C7 and C9: the history listing always fails

The timestamp extraction on line 147 keeps only the date half of the file
name, and the fourteen-character format of line 148 can never match it. -/

theorem stripDotJson_nil : stripDotJson [] = [] := rfl

theorem stripDotJson_dotjson (rest : List Char) :
    stripDotJson ('.' :: 'j' :: 's' :: 'o' :: 'n' :: rest) = stripDotJson rest := rfl

theorem stripDotJson_cons_ne (c : Char) (l : List Char) (h : c ≠ '.') :
    stripDotJson (c :: l) = c :: stripDotJson l := by
  rw [stripDotJson.eq_def]
  split
  · rename_i heq
    injection heq with h1 h2
    exact absurd h1 h
  · rename_i heq
    injection heq with h1 h2
    rw [h1, h2]
  · rename_i heq
    exact absurd heq (by simp)

theorem stripDotJson_append (l : List Char) (h : '.' ∉ l) :
    stripDotJson (l ++ ['.', 'j', 's', 'o', 'n']) = l := by
  induction l with
  | nil => rfl
  | cons c rest ih =>
    have hc : c ≠ '.' := fun hc => h (hc ▸ List.mem_cons_self c rest)
    have hr : '.' ∉ rest := fun hr => h (List.mem_cons_of_mem c hr)
    show stripDotJson (c :: (rest ++ ['.', 'j', 's', 'o', 'n'])) = c :: rest
    rw [stripDotJson_cons_ne c _ hc, ih hr]

theorem splitUnd_cons_und (l : List Char) : splitUnd ('_' :: l) = [] :: splitUnd l := by
  rw [splitUnd]
  simp

theorem splitUnd_cons_ne (c : Char) (l : List Char) (h : c ≠ '_') :
    splitUnd (c :: l) =
      match splitUnd l with
      | [] => [[c]]
      | g :: gs => (c :: g) :: gs := by
  rw [splitUnd]
  simp [h]

theorem splitUnd_noUnd (l : List Char) (h : '_' ∉ l) : splitUnd l = [l] := by
  induction l with
  | nil => rfl
  | cons c rest ih =>
    have hc : c ≠ '_' := fun hc => h (hc ▸ List.mem_cons_self c rest)
    have hr : '_' ∉ rest := fun hr => h (List.mem_cons_of_mem c hr)
    rw [splitUnd_cons_ne c rest hc, ih hr]

theorem splitUnd_append (a : List Char) (h : '_' ∉ a) :
    ∀ (rest : List Char) (g : List Char) (gs : List (List Char)),
    splitUnd rest = g :: gs → splitUnd (a ++ rest) = (a ++ g) :: gs := by
  induction a with
  | nil =>
    intro rest g gs hr
    simpa using hr
  | cons c a1 ih =>
    intro rest g gs hr
    have hc : c ≠ '_' := fun hc => h (hc ▸ List.mem_cons_self c a1)
    have ha : '_' ∉ a1 := fun ha => h (List.mem_cons_of_mem c ha)
    show splitUnd (c :: (a1 ++ rest)) = _
    rw [splitUnd_cons_ne c _ hc, ih ha rest g gs hr]
    rfl

theorem dateStr_length (t : DateTime) : t.dateStr.length = 8 := by
  simp [DateTime.dateStr, pad4, pad2, digits4, digits2]

theorem dateStr_digits (t : DateTime) (h : t.Valid) : ∀ c ∈ t.dateStr, ∃ x < 10, c = digitChar x := by
  intro c hc
  rw [dateStr_eq_map] at hc
  rcases List.mem_map.mp hc with ⟨x, hx, hcx⟩
  exact ⟨x, dateDigits_bound t h x hx, hcx.symm⟩

theorem timeStr_digits (t : DateTime) (h : t.Valid) : ∀ c ∈ t.timeStr, ∃ x < 10, c = digitChar x := by
  intro c hc
  rw [timeStr_eq_map] at hc
  rcases List.mem_map.mp hc with ⟨x, hx, hcx⟩
  exact ⟨x, timeDigits_bound t h x hx, hcx.symm⟩

theorem dateStr_no_dot (t : DateTime) (h : t.Valid) : '.' ∉ t.dateStr := by
  intro hc
  rcases dateStr_digits t h '.' hc with ⟨x, hx, hcx⟩
  exact dcNotDot x hx hcx.symm

theorem timeStr_no_dot (t : DateTime) (h : t.Valid) : '.' ∉ t.timeStr := by
  intro hc
  rcases timeStr_digits t h '.' hc with ⟨x, hx, hcx⟩
  exact dcNotDot x hx hcx.symm

theorem dateStr_no_und (t : DateTime) (h : t.Valid) : '_' ∉ t.dateStr := by
  intro hc
  rcases dateStr_digits t h '_' hc with ⟨x, hx, hcx⟩
  exact dcNotUnd x hx hcx.symm

theorem timeStr_no_und (t : DateTime) (h : t.Valid) : '_' ∉ t.timeStr := by
  intro hc
  rcases timeStr_digits t h '_' hc with ⟨x, hx, hcx⟩
  exact dcNotUnd x hx hcx.symm

/-- Line 147 applied to the file name of instant `t`: the extracted
timestamp is the eight date characters alone. -/
theorem extract_timestamp (t : DateTime) (h : t.Valid) :
    (splitUnd (stripDotJson (scanFilename t).data)).get? 1 = some t.dateStr := by
  have hstrip : stripDotJson (scanFilename t).data =
      ['s', 'c', 'a', 'n', '_'] ++ (t.dateStr ++ '_' :: t.timeStr) := by
    rw [scanFilename_data]
    have harr : (['s', 'c', 'a', 'n', '_'] ++
        (t.dateStr ++ '_' :: (t.timeStr ++ ['.', 'j', 's', 'o', 'n'])) : List Char) =
        ((['s', 'c', 'a', 'n', '_'] ++ (t.dateStr ++ '_' :: t.timeStr)) ++
          ['.', 'j', 's', 'o', 'n']) := by
      simp
    rw [harr]
    apply stripDotJson_append
    intro hmem
    rcases List.mem_append.mp hmem with h1 | h1
    · exact absurd h1 (by decide)
    · rcases List.mem_append.mp h1 with h2 | h2
      · exact dateStr_no_dot t h h2
      · rcases List.mem_cons.mp h2 with h3 | h3
        · exact absurd h3 (by decide)
        · exact timeStr_no_dot t h h3
  rw [hstrip]
  have ht : splitUnd t.timeStr = [t.timeStr] := splitUnd_noUnd _ (timeStr_no_und t h)
  have h1 : splitUnd ('_' :: t.timeStr) = [] :: [t.timeStr] := by
    rw [splitUnd_cons_und, ht]
  have h2 : splitUnd (t.dateStr ++ '_' :: t.timeStr) = (t.dateStr ++ []) :: [t.timeStr] :=
    splitUnd_append t.dateStr (dateStr_no_und t h) _ _ _ h1
  rw [List.append_nil] at h2
  have h3 : splitUnd ('_' :: (t.dateStr ++ '_' :: t.timeStr)) =
      [] :: t.dateStr :: [t.timeStr] := by
    rw [splitUnd_cons_und, h2]
  have h4 : splitUnd (['s', 'c', 'a', 'n'] ++ ('_' :: (t.dateStr ++ '_' :: t.timeStr))) =
      (['s', 'c', 'a', 'n'] ++ []) :: t.dateStr :: [t.timeStr] :=
    splitUnd_append ['s', 'c', 'a', 'n'] (by decide) _ _ _ h3
  have h5 : (['s', 'c', 'a', 'n', '_'] ++ (t.dateStr ++ '_' :: t.timeStr) : List Char) =
      ['s', 'c', 'a', 'n'] ++ ('_' :: (t.dateStr ++ '_' :: t.timeStr)) := by
    simp
  rw [h5, h4]
  rfl

theorem fieldCands_shrink (ok2 ok1 : Nat → Bool) (l : List Char) (v : Nat) (r : List Char)
    (h : (v, r) ∈ fieldCands ok2 ok1 l) : r.length < l.length := by
  match l with
  | [] => exact absurd h (by simp [fieldCands])
  | [a] =>
    rw [fieldCands] at h
    split at h
    · rcases List.mem_cons.mp h with h1 | h1
      · rw [Prod.mk.injEq] at h1
        rw [h1.2]
        simp
      · exact absurd h1 (by simp)
    · exact absurd h (by simp)
  | a :: b :: rest =>
    rw [fieldCands] at h
    rcases List.mem_append.mp h with h1 | h1
    · split at h1
      · rcases List.mem_cons.mp h1 with h2 | h2
        · rw [Prod.mk.injEq] at h2
          rw [h2.2]
          simp
          omega
        · exact absurd h2 (by simp)
      · exact absurd h1 (by simp)
    · split at h1
      · rcases List.mem_cons.mp h1 with h2 | h2
        · rw [Prod.mk.injEq] at h2
          rw [h2.2]
          simp
        · exact absurd h2 (by simp)
      · exact absurd h1 (by simp)

theorem firstSome_some {α β : Type} (l : List α) (f : α → Option β) (b : β)
    (h : firstSome l f = some b) : ∃ a ∈ l, f a = some b := by
  induction l with
  | nil => exact absurd h (by simp [firstSome])
  | cons a rest ih =>
    rw [firstSome] at h
    cases hf : f a with
    | some b1 =>
      rw [hf] at h
      simp at h
      exact ⟨a, List.mem_cons_self a rest, by rw [hf, h]⟩
    | none =>
      rw [hf] at h
      rcases ih h with ⟨a1, ha1, hfa1⟩
      exact ⟨a1, List.mem_cons_of_mem a ha1, hfa1⟩

/-- The fourteen-character format `%Y%m%d%H%M%S` can never match an
eight-character timestamp: after the four year digits, five fields each
need at least one character from the four that remain. -/
theorem strptime_none_of_length8 (s : List Char) (h : s.length = 8) :
    strptimeYmdHMS s = none := by
  match s, h with
  | a :: b :: c :: d :: rest, h =>
    have hrest : rest.length = 4 := by simpa using h
    rw [strptimeYmdHMS]
    split
    · cases hp : firstSome (fieldCands monthOk2 monthOk1 rest) _ with
      | none => rfl
      | some x =>
        exfalso
        rcases firstSome_some _ _ _ hp with ⟨p1, hp1, hf1⟩
        have hl1 : p1.2.length < 4 := by
          have := fieldCands_shrink monthOk2 monthOk1 rest p1.1 p1.2 hp1
          omega
        rcases firstSome_some _ _ _ hf1 with ⟨p2, hp2, hf2⟩
        have hl2 : p2.2.length < 3 := by
          have := fieldCands_shrink dayOk2 dayOk1 p1.2 p2.1 p2.2 hp2
          omega
        rcases firstSome_some _ _ _ hf2 with ⟨p3, hp3, hf3⟩
        have hl3 : p3.2.length < 2 := by
          have := fieldCands_shrink hourOk2 hourOk1 p2.2 p3.1 p3.2 hp3
          omega
        rcases firstSome_some _ _ _ hf3 with ⟨p4, hp4, hf4⟩
        have hl4 : p4.2.length < 1 := by
          have := fieldCands_shrink minuteOk2 minuteOk1 p3.2 p4.1 p4.2 hp4
          omega
        have hp4nil : p4.2 = [] := List.eq_nil_of_length_eq_zero (by omega)
        rcases firstSome_some _ _ _ hf4 with ⟨p5, hp5, _⟩
        rw [hp4nil] at hp5
        exact absurd hp5 (by simp [fieldCands])
    · rfl

/-- Lines 147–149 on any file `save_scan` wrote: the summary line is never
printed — `strptime` raises `ValueError` on the eight date characters. -/
theorem historyLine_fails (t : DateTime) (h : t.Valid) (i : Nat) (s : PyState) :
    historyLine i (scanFilename t) s =
      (Sum.inl (PyError.valueError ("time data " ++ String.mk t.dateStr ++
        " does not match format %Y%m%d%H%M%S")), s) := by
  rw [historyLine, extract_timestamp t h]
  show (match strptimeYmdHMS t.dateStr with
    | none => pyRaise (PyError.valueError ("time data " ++ String.mk t.dateStr ++
        " does not match format %Y%m%d%H%M%S"))
    | some dt => pyPrint (toString (i + 1) ++ ") Scan ID: " ++ scanFilename t ++
        ", Date: " ++ dt.display)) s = _
  rw [strptime_none_of_length8 t.dateStr (dateStr_length t)]
  rfl

/-- Claim C9: for every scan file written by `save_scan`, the date parsing
of `view_history` raises `ValueError`: splitting the name on underscores
and taking index 1 yields only the eight-character date portion, which the
fourteen-character format `%Y%m%d%H%M%S` can never match, so the history
line for a saved scan always raises instead of printing. -/
theorem claim_C9 (t : DateTime) (h : t.Valid) :
    (splitUnd (stripDotJson (scanFilename t).data)).get? 1 = some t.dateStr ∧
    t.dateStr.length = 8 ∧
    strptimeYmdHMS t.dateStr = none ∧
    ∀ (i : Nat) (s : PyState), historyLine i (scanFilename t) s =
      (Sum.inl (PyError.valueError ("time data " ++ String.mk t.dateStr ++
        " does not match format %Y%m%d%H%M%S")), s) :=
  ⟨extract_timestamp t h, dateStr_length t, strptime_none_of_length8 _ (dateStr_length t),
   fun i s => historyLine_fails t h i s⟩

/-- Witness for claim C9 at a concrete instant. -/
theorem claim_C9_witness :
    (⟨2024, 1, 15, 12, 0, 0⟩ : DateTime).Valid ∧
    (splitUnd (stripDotJson (scanFilename ⟨2024, 1, 15, 12, 0, 0⟩).data)).get? 1 =
      some (⟨2024, 1, 15, 12, 0, 0⟩ : DateTime).dateStr ∧
    strptimeYmdHMS (⟨2024, 1, 15, 12, 0, 0⟩ : DateTime).dateStr = none ∧
    historyLine 0 (scanFilename ⟨2024, 1, 15, 12, 0, 0⟩) ⟨[], ⟨true, []⟩⟩ =
      (Sum.inl (PyError.valueError ("time data " ++
        String.mk (⟨2024, 1, 15, 12, 0, 0⟩ : DateTime).dateStr ++
        " does not match format %Y%m%d%H%M%S")), ⟨[], ⟨true, []⟩⟩) := by
  have h := claim_C9 ⟨2024, 1, 15, 12, 0, 0⟩ (by decide)
  exact ⟨by decide, h.1, h.2.2.1, h.2.2.2 0 ⟨[], ⟨true, []⟩⟩⟩

/-! ## view_history on a non-empty directory of saved scans -/

theorem mem_insertDesc (x a : String) (l : List String) :
    x ∈ insertDesc a l ↔ x = a ∨ x ∈ l := by
  induction l with
  | nil => simp [insertDesc]
  | cons b rest ih =>
    rw [insertDesc]
    split
    · simp only [List.mem_cons, ih]
      tauto
    · simp only [List.mem_cons]

theorem mem_sortDesc (x : String) (l : List String) : x ∈ sortDesc l ↔ x ∈ l := by
  induction l with
  | nil => simp [sortDesc]
  | cons a rest ih =>
    rw [sortDesc, mem_insertDesc, ih]
    simp

theorem length_insertDesc (a : String) (l : List String) :
    (insertDesc a l).length = l.length + 1 := by
  induction l with
  | nil => rfl
  | cons b rest ih =>
    rw [insertDesc]
    split
    · simp [ih]
    · simp

theorem length_sortDesc (l : List String) : (sortDesc l).length = l.length := by
  induction l with
  | nil => rfl
  | cons a rest ih =>
    rw [sortDesc, length_insertDesc, ih]
    rfl

theorem getColor_GREEN (s : PyState) : getColor "GREEN" s = (Sum.inr ColorPrinter.GREEN, s) := rfl

theorem getColor_RED (s : PyState) : getColor "RED" s = (Sum.inr ColorPrinter.RED, s) := rfl

theorem getColor_YELLOW (s : PyState) :
    getColor "YELLOW" s = (Sum.inr ColorPrinter.YELLOW, s) := rfl

theorem historyLoop_cons_fail (i : Nat) (n : String) (rest : List String) (s : PyState)
    (e : PyError) (h : historyLine i n s = (Sum.inl e, s)) :
    historyLoop i (n :: rest) s = (Sum.inl e, s) := by
  show (historyLine i n >>= fun _ => historyLoop (i + 1) rest) s = _
  rw [PyM.bind_apply, h]

/-- On a directory whose files were all written by `save_scan`,
`view_history` prints the banner and the section header and then raises
`ValueError` at the first (sorted-first) entry: no summary line is ever
printed. -/
theorem view_history_fails (ts : List DateTime) (s : PyState) (hne : ts ≠ [])
    (hv : ∀ t ∈ ts, t.Valid) (hdir : s.store.dirExists = true)
    (hfiles : s.store.files.map Prod.fst = ts.map scanFilename) :
    ∃ t ∈ ts, view_history s =
      (Sum.inl (PyError.valueError ("time data " ++ String.mk t.dateStr ++
        " does not match format %Y%m%d%H%M%S")),
       ⟨s.out ++ [ColorPrinter.colorize ColorPrinter.GREEN bannerText,
         "\n===== Scan History =====\n"], s.store⟩) := by
  have hnames : s.store.files.map Prod.fst ≠ [] := by
    rw [hfiles]
    intro hmap
    exact hne (List.map_eq_nil_iff.mp hmap)
  obtain ⟨n, rest, hsort⟩ : ∃ n rest,
      sortDesc (s.store.files.map Prod.fst) = n :: rest := by
    cases hs : sortDesc (s.store.files.map Prod.fst) with
    | nil =>
      exfalso
      have hlen := length_sortDesc (s.store.files.map Prod.fst)
      rw [hs] at hlen
      exact hnames (List.eq_nil_of_length_eq_zero hlen.symm)
    | cons n rest => exact ⟨n, rest, rfl⟩
  have hn_mem : n ∈ s.store.files.map Prod.fst := by
    have hmem : n ∈ sortDesc (s.store.files.map Prod.fst) := by
      rw [hsort]
      exact List.mem_cons_self n rest
    exact (mem_sortDesc n _).mp hmem
  rw [hfiles] at hn_mem
  obtain ⟨t, ht_mem, ht_eq⟩ := List.mem_map.mp hn_mem
  refine ⟨t, ht_mem, ?_⟩
  have hempty : s.store.files.isEmpty = false := by
    cases hfe : s.store.files with
    | nil =>
      rw [hfe] at hnames
      exact absurd rfl hnames
    | cons a b => rfl
  have h1 : view_history s =
      (if s.store.dirExists = false ∨ s.store.files.isEmpty = true then
        (do
          let y ← getColor "YELLOW"
          pyPrint (ColorPrinter.colorize y "No previous scans found."))
      else
        (historyLoop 0 ((sortDesc (s.store.files.map Prod.fst)).take 10) >>= fun _ =>
          pyPrint
            "\nEnter s<scan_num> to view a specific scan, or press Enter to go back."))
      ⟨(s.out ++ [ColorPrinter.colorize ColorPrinter.GREEN bannerText]) ++
        ["\n===== Scan History =====\n"], s.store⟩ := rfl
  have hcond : ¬ (s.store.dirExists = false ∨ s.store.files.isEmpty = true) := by
    rw [hdir, hempty]
    simp
  rw [h1, if_neg hcond, PyM.bind_apply]
  have htake : (sortDesc (s.store.files.map Prod.fst)).take 10 = n :: rest.take 9 := by
    rw [hsort]
    rfl
  rw [htake]
  have hline := historyLine_fails t (hv t ht_mem) 0
    ⟨(s.out ++ [ColorPrinter.colorize ColorPrinter.GREEN bannerText]) ++
      ["\n===== Scan History =====\n"], s.store⟩
  rw [ht_eq] at hline
  rw [historyLoop_cons_fail 0 n (rest.take 9) _ _ hline]
  simp

/-- Eight instants on consecutive days, as the save times of eight reports. -/
def ts8 : List DateTime :=
  [⟨2024, 1, 15, 12, 0, 0⟩, ⟨2024, 1, 16, 12, 0, 0⟩, ⟨2024, 1, 17, 12, 0, 0⟩,
   ⟨2024, 1, 18, 12, 0, 0⟩, ⟨2024, 1, 19, 12, 0, 0⟩, ⟨2024, 1, 20, 12, 0, 0⟩,
   ⟨2024, 1, 21, 12, 0, 0⟩, ⟨2024, 1, 22, 12, 0, 0⟩]

/-- The `scans` directory after eight saves at the instants of `ts8`. -/
def files8 : List (String × FileContent) :=
  ts8.map fun t => (scanFilename t, FileContent.complete recA.toJson)

def state8 : PyState := ⟨[], ⟨true, files8⟩⟩

/-- Claim C7 counterexample: with eight saved reports in the directory,
`view_history` does not return five summaries — it prints only the banner
and the section header and then raises `ValueError` on the first
(most recent) entry. -/
theorem claim_C7_counterexample :
    view_history state8 =
      (Sum.inl (PyError.valueError
        "time data 20240122 does not match format %Y%m%d%H%M%S"),
       ⟨[ColorPrinter.colorize ColorPrinter.GREEN bannerText,
         "\n===== Scan History =====\n"], ⟨true, files8⟩⟩) := rfl

/-- Claim C7 amended: after saving any non-empty set of reports (eight in
the witness), `view_history` sorts the file names most recent first and
truncates to ten — not five — but raises `ValueError` while formatting the
first entry, so it lists no summaries at all: the output gains exactly the
banner and the section header. -/
theorem claim_C7_amended (ts : List DateTime) (s : PyState) (hne : ts ≠ [])
    (hv : ∀ t ∈ ts, t.Valid) (hdir : s.store.dirExists = true)
    (hfiles : s.store.files.map Prod.fst = ts.map scanFilename) :
    ∃ t ∈ ts, view_history s =
      (Sum.inl (PyError.valueError ("time data " ++ String.mk t.dateStr ++
        " does not match format %Y%m%d%H%M%S")),
       ⟨s.out ++ [ColorPrinter.colorize ColorPrinter.GREEN bannerText,
         "\n===== Scan History =====\n"], s.store⟩) :=
  view_history_fails ts s hne hv hdir hfiles

/-- Witness for claim C7 amended, at the eight concrete saved reports. -/
theorem claim_C7_amended_witness :
    ts8 ≠ [] ∧ (∀ t ∈ ts8, t.Valid) ∧ state8.store.dirExists = true ∧
    state8.store.files.map Prod.fst = ts8.map scanFilename ∧
    ∃ t ∈ ts8, view_history state8 =
      (Sum.inl (PyError.valueError ("time data " ++ String.mk t.dateStr ++
        " does not match format %Y%m%d%H%M%S")),
       ⟨state8.out ++ [ColorPrinter.colorize ColorPrinter.GREEN bannerText,
         "\n===== Scan History =====\n"], state8.store⟩) := by
  refine ⟨by decide, by decide, rfl, rfl, ?_⟩
  exact claim_C7_amended ts8 state8 (by decide) (by decide) rfl rfl
